import Mathlib

/-!
Verification of the frame-detection pipeline of the Exam Proctor extension.

The repository contains two near-duplicate implementations of the pipeline:
`yolo-worker.js` (class `YOLOWorker`, running in a web worker) and the module
`YOLOModelLoader` (source file with unknown name, `part_006`).  JavaScript
numbers are embedded as rationals (`ℚ`), 8-bit pixel channels as `Fin 256`,
and the flat output tensor as a total function `ℕ → ℚ`.  Each definition
below is a direct translation of the named source function; divergences
between the two implementations are kept, not unified.
-/

/-- A bounding box as the four-element `bbox` array `[x, y, w, h]` carried by
a detection object.  The two implementations disagree about whether `(x, y)`
is the box centre or its top-left corner; the embedding just stores the four
numbers. -/
structure Box where
  x : ℚ
  y : ℚ
  w : ℚ
  h : ℚ
deriving DecidableEq, Repr

/-- A detection object as built by `postprocessDetections` / the mock
inference path: both sources construct objects with exactly these fields. -/
structure Detection where
  classId : ℕ
  className : String
  confidence : ℚ
  bbox : Box
  centerX : ℚ
  centerY : ℚ
  width : ℚ
  height : ℚ
deriving DecidableEq, Repr

/-- The 80-entry COCO class table.  `YOLOWorker.getClassNames` and
`YOLOModelLoader.initializeClassNames` return character-for-character the
same list. -/
def cocoClassNames : List String :=
  ["person", "bicycle", "car", "motorcycle", "airplane", "bus", "train", "truck", "boat",
   "traffic light", "fire hydrant", "stop sign", "parking meter", "bench", "bird", "cat",
   "dog", "horse", "sheep", "cow", "elephant", "bear", "zebra", "giraffe", "backpack",
   "umbrella", "handbag", "tie", "suitcase", "frisbee", "skis", "snowboard", "sports ball",
   "kite", "baseball bat", "baseball glove", "skateboard", "surfboard", "tennis racket",
   "bottle", "wine glass", "cup", "fork", "knife", "spoon", "bowl", "banana", "apple",
   "sandwich", "orange", "broccoli", "carrot", "hot dog", "pizza", "donut", "cake",
   "chair", "couch", "potted plant", "bed", "dining table", "toilet", "tv", "laptop",
   "mouse", "remote", "keyboard", "cell phone", "microwave", "oven", "toaster", "sink",
   "refrigerator", "book", "clock", "vase", "scissors", "teddy bear", "hair drier", "toothbrush"]

namespace YOLOWorker

/-- Width of the intersection rectangle in `YOLOWorker.calculateIOU`
(`yolo-worker.js` lines 392-394): the four box values are read as top-left
corner plus width/height, so the horizontal extent of a box is
`[x, x + w]`. -/
def intersectionW (b1 b2 : Box) : ℚ :=
  min (b1.x + b1.w) (b2.x + b2.w) - max b1.x b2.x

/-- Height of the intersection rectangle in `YOLOWorker.calculateIOU`
(`yolo-worker.js` lines 393-395). -/
def intersectionH (b1 b2 : Box) : ℚ :=
  min (b1.y + b1.h) (b2.y + b2.h) - max b1.y b2.y

/-- `YOLOWorker.calculateIOU` (`yolo-worker.js` lines 387-405).  Corner-based
intersection; a non-positive intersection width or height short-circuits to
`0` before any division happens. -/
def calculateIOU (b1 b2 : Box) : ℚ :=
  let iW := intersectionW b1 b2
  let iH := intersectionH b1 b2
  if iW ≤ 0 ∨ iH ≤ 0 then 0
  else (iW * iH) / (b1.w * b1.h + b2.w * b2.h - iW * iH)

end YOLOWorker

namespace YOLOModelLoader

/-- Left edge of the intersection in `YOLOModelLoader.calculateIoU`
(`part_006` line 253): box values are read as centre plus width/height, so a
box spans `[x - w/2, x + w/2]`. -/
def xLeft (b1 b2 : Box) : ℚ :=
  max (b1.x - b1.w / 2) (b2.x - b2.w / 2)

/-- Top edge of the intersection in `YOLOModelLoader.calculateIoU`
(`part_006` line 254). -/
def yTop (b1 b2 : Box) : ℚ :=
  max (b1.y - b1.h / 2) (b2.y - b2.h / 2)

/-- Right edge of the intersection in `YOLOModelLoader.calculateIoU`
(`part_006` line 255). -/
def xRight (b1 b2 : Box) : ℚ :=
  min (b1.x + b1.w / 2) (b2.x + b2.w / 2)

/-- Bottom edge of the intersection in `YOLOModelLoader.calculateIoU`
(`part_006` line 256). -/
def yBottom (b1 b2 : Box) : ℚ :=
  min (b1.y + b1.h / 2) (b2.y + b2.h / 2)

/-- Union area (the divisor) of `YOLOModelLoader.calculateIoU`
(`part_006` line 265).  Exposed as its own definition so that theorems can
talk about the divisor being zero: JavaScript would produce `NaN` there,
while `ℚ` division totalises `q / 0` to `0`. -/
def unionArea (b1 b2 : Box) : ℚ :=
  b1.w * b1.h + b2.w * b2.h -
    (xRight b1 b2 - xLeft b1 b2) * (yBottom b1 b2 - yTop b1 b2)

/-- `YOLOModelLoader.calculateIoU` (`part_006` lines 249-268).  Centre-based
intersection; only a strictly inverted rectangle (`xRight < xLeft` or
`yBottom < yTop`) short-circuits to `0`, so a degenerate touching
intersection still reaches the division. -/
def calculateIoU (b1 b2 : Box) : ℚ :=
  if xRight b1 b2 < xLeft b1 b2 ∨ yBottom b1 b2 < yTop b1 b2 then 0
  else ((xRight b1 b2 - xLeft b1 b2) * (yBottom b1 b2 - yTop b1 b2)) / unionArea b1 b2

end YOLOModelLoader

/-- Modelled from the spec: the centre-based IoU formula mandated by §3 and
§4.5 of the specification — intersection of `[x - w/2, x + w/2] × [y - h/2,
y + h/2]` rectangles (clamped at zero), divided by `areaA + areaB -
intersection`.  Used only to compare the two source implementations against
the spec's convention. -/
def centerIoUSpec (b1 b2 : Box) : ℚ :=
  let interW := max 0 (min (b1.x + b1.w / 2) (b2.x + b2.w / 2) -
                       max (b1.x - b1.w / 2) (b2.x - b2.w / 2))
  let interH := max 0 (min (b1.y + b1.h / 2) (b2.y + b2.h / 2) -
                       max (b1.y - b1.h / 2) (b2.y - b2.h / 2))
  (interW * interH) / (b1.w * b1.h + b2.w * b2.h - interW * interH)

/-- Modelled from the spec wording of §9 describing the "second, corner-based
convention": intersection of `[x, x + w] × [y, y + h]` rectangles (clamped at
zero), divided by `areaA + areaB - intersection`. -/
def cornerIoUSpec (b1 b2 : Box) : ℚ :=
  let interW := max 0 (min (b1.x + b1.w) (b2.x + b2.w) - max b1.x b2.x)
  let interH := max 0 (min (b1.y + b1.h) (b2.y + b2.h) - max b1.y b2.y)
  (interW * interH) / (b1.w * b1.h + b2.w * b2.h - interW * interH)

/-- Payload of an `updateThresholds` message: either field may be absent
(`undefined` in the JavaScript sources). -/
structure ThresholdUpdate where
  confidence : Option ℚ
  nms : Option ℚ
deriving DecidableEq, Repr

/-- The class-score scan shared verbatim by both `postprocessDetections`
loops (`yolo-worker.js` lines 327-336, `part_006` lines 182-191): the
running maximum starts at `0` with class index `0` and is replaced only on a
strict increase, so equal maxima keep the first (lowest) class index. -/
def bestClass (score : ℕ → ℚ) (numClasses : ℕ) : ℚ × ℕ :=
  (List.range numClasses).foldl
    (fun acc j => if score j > acc.1 then (score j, j) else acc) (0, 0)

/-- One candidate row of `postprocessDetections` (identical structure in both
sources, `yolo-worker.js` lines 319-350 and `part_006` lines 174-205).
`stride` is `outputShape[1]` (= 4 + classCount), so row `i` has its four
geometry values at flat offsets `i*stride + 0 .. 3` and its class scores
after them.  `thr` is the confidence cut-off the row filter compares against:
the stored `this.confidenceThreshold` in the loader, the literal `0.5` in
the worker. -/
def decodeRow (table : List String) (thr : ℚ) (data : ℕ → ℚ)
    (stride i : ℕ) : Option Detection :=
  let x := data (i * stride + 0)
  let y := data (i * stride + 1)
  let w := data (i * stride + 2)
  let h := data (i * stride + 3)
  let best := bestClass (fun j => data (i * stride + 4 + j)) (stride - 4)
  if best.1 > thr then
    some { classId := best.2, className := table.getD best.2 "",
           confidence := best.1, bbox := ⟨x, y, w, h⟩,
           centerX := x, centerY := y, width := w, height := h }
  else none

/-- The candidate list produced by the row loop of `postprocessDetections`
before non-maximum suppression; `numDet` is `outputShape[2]`. -/
def decodeCandidates (table : List String) (thr : ℚ) (data : ℕ → ℚ)
    (stride numDet : ℕ) : List Detection :=
  (List.range numDet).filterMap (decodeRow table thr data stride)

instance detectionConfidenceGE :
    DecidableRel (fun a b : Detection => b.confidence ≤ a.confidence) :=
  fun a b => inferInstanceAs (Decidable (b.confidence ≤ a.confidence))

/-- JavaScript's `Array.prototype.sort` with comparator
`(a, b) => b.confidence - a.confidence` (used by both `applyNMS`
implementations) is a stable descending sort on confidence; it is embedded as
Mathlib's stable `insertionSort` on the relation
`b.confidence ≤ a.confidence`. -/
def sortByConfidence (l : List Detection) : List Detection :=
  l.insertionSort (fun a b => b.confidence ≤ a.confidence)

namespace YOLOWorker

/-- The two threshold fields of the mock model descriptor built by
`loadYOLOModel` (`yolo-worker.js` lines 59-67); they are the only model
fields the postprocessing pipeline reads. -/
structure Model where
  confidenceThreshold : ℚ
  nmsThreshold : ℚ
deriving DecidableEq, Repr

/-- Threshold values of the descriptor at load time: `confidenceThreshold:
0.5, nmsThreshold: 0.4`. -/
def initialModel : Model := ⟨1 / 2, 2 / 5⟩

/-- `YOLOWorker.updateThresholds` (`yolo-worker.js` lines 465-480): each
provided value replaces the stored field verbatim — there is no clamping in
this implementation. -/
def updateThresholds (t : ThresholdUpdate) (m : Model) : Model :=
  { confidenceThreshold := t.confidence.getD m.confidenceThreshold,
    nmsThreshold := t.nms.getD m.nmsThreshold }

/-- The walk of `YOLOWorker.applyNMS` (`yolo-worker.js` lines 368-382):
`kept` accumulates `keptDetections` in order; the current detection is
dropped exactly when its IoU with some already-kept detection strictly
exceeds the threshold (`iou > this.model.nmsThreshold`). -/
def nmsWalk (thr : ℚ) (kept : List Detection) : List Detection → List Detection
  | [] => kept
  | d :: rest =>
    if kept.any fun k => decide (thr < calculateIOU d.bbox k.bbox) then
      nmsWalk thr kept rest
    else
      nmsWalk thr (kept ++ [d]) rest

/-- `YOLOWorker.applyNMS` (`yolo-worker.js` lines 361-385): sort by
confidence descending, then the greedy walk against the model's stored NMS
threshold. -/
def applyNMS (m : Model) (dets : List Detection) : List Detection :=
  nmsWalk m.nmsThreshold [] (sortByConfidence dets)

/-- `YOLOWorker.postprocessDetections` (`yolo-worker.js` lines 308-359).
The row filter compares the maximum class score against the literal `0.5`
(line 339), not against `m.confidenceThreshold`; the NMS stage, by contrast,
does read `m.nmsThreshold`. -/
def postprocessDetections (m : Model) (data : ℕ → ℚ)
    (stride numDet : ℕ) : List Detection :=
  applyNMS m (decodeCandidates cocoClassNames (1 / 2) data stride numDet)

end YOLOWorker

namespace YOLOModelLoader

/-- The two mutable threshold fields of `YOLOModelLoader` (`part_006` lines
19-20); they are the only loader state the postprocessing pipeline reads. -/
structure State where
  confidenceThreshold : ℚ
  nmsThreshold : ℚ
deriving DecidableEq, Repr

/-- Constructor values: `confidenceThreshold = 0.5`, `nmsThreshold = 0.4`. -/
def initState : State := ⟨1 / 2, 2 / 5⟩

/-- Both stored thresholds lie in the clamp interval `[0.1, 1.0]`. -/
def State.inRange (s : State) : Prop :=
  1 / 10 ≤ s.confidenceThreshold ∧ s.confidenceThreshold ≤ 1 ∧
  1 / 10 ≤ s.nmsThreshold ∧ s.nmsThreshold ≤ 1

instance (s : State) : Decidable s.inRange := by
  unfold State.inRange; infer_instance

/-- `YOLOModelLoader.updateThresholds` (`part_006` lines 301-313): each
provided value is clamped by `Math.max(0.1, Math.min(1.0, v))` before being
stored; absent fields are left unchanged. -/
def updateThresholds (t : ThresholdUpdate) (s : State) : State :=
  { confidenceThreshold :=
      match t.confidence with
      | some v => max (1 / 10) (min 1 v)
      | none => s.confidenceThreshold,
    nmsThreshold :=
      match t.nms with
      | some v => max (1 / 10) (min 1 v)
      | none => s.nmsThreshold }

/-- The suppression loop of `YOLOModelLoader.applyNMS` (`part_006` lines
224-238), with the `suppressed` index set expressed as filtering: keeping
`detections[i]` suppresses every later `j` with `IoU > nmsThreshold`
(so only later entries with `IoU ≤ nmsThreshold` are ever visited again),
and suppressed entries are never pushed. -/
def nmsFilter (thr : ℚ) : List Detection → List Detection
  | [] => []
  | d :: rest =>
    d :: nmsFilter thr (rest.filter fun e => decide (calculateIoU d.bbox e.bbox ≤ thr))
termination_by l => l.length
decreasing_by
  simp only [List.length_cons]
  exact Nat.lt_succ_of_le (List.length_filter_le _ _)

/-- `YOLOModelLoader.applyNMS` (`part_006` lines 217-241): sort by confidence
descending (in place in the source), then the suppression loop against the
stored NMS threshold. -/
def applyNMS (s : State) (dets : List Detection) : List Detection :=
  nmsFilter s.nmsThreshold (sortByConfidence dets)

/-- `YOLOModelLoader.postprocessDetections` (`part_006` lines 164-210).  The
row filter compares the maximum class score against the stored
`this.confidenceThreshold` (line 194). -/
def postprocessDetections (s : State) (data : ℕ → ℚ)
    (stride numDet : ℕ) : List Detection :=
  applyNMS s (decodeCandidates cocoClassNames s.confidenceThreshold data stride numDet)

end YOLOModelLoader

/-- The RGBA-to-tensor loop shared by `YOLOWorker.preprocessFrame`
(`yolo-worker.js` lines 222-230) and `YOLOModelLoader.preprocessImage`
(`part_006` lines 116-124): the resized image's pixel data is consumed four
bytes (R, G, B, A) at a time; the three colour channels are divided by 255.0
and appended in that order, the alpha byte is dropped.  The real buffer
always has length `640 * 640 * 4`; a trailing chunk shorter than four bytes
(where JavaScript would read `undefined`) is dropped. -/
def imageDataToTensor : List (Fin 256) → List ℚ
  | r :: g :: b :: _a :: rest =>
    ((r : ℕ) : ℚ) / 255 :: ((g : ℕ) : ℚ) / 255 :: ((b : ℕ) : ℚ) / 255 ::
      imageDataToTensor rest
  | _ => []

/-- Modelled from the spec: the planar (channel, row, column) tensor layout
mandated by §3 and §4.2 — for a `pixelCount`-pixel image, the value at flat
index `c * pixelCount + p` is pixel `p`'s channel-`c` byte (offset
`4 * p + c` in the RGBA buffer) divided by 255.  Used only to compare the
source loop against the spec's layout. -/
def planarTensorSpec (data : List (Fin 256)) (pixelCount : ℕ) : List ℚ :=
  (List.range 3).flatMap fun c =>
    (List.range pixelCount).map fun p => ((data.getD (4 * p + c) 0 : ℕ) : ℚ) / 255

namespace YOLOWorker

/-- The six-entry class set of the worker's mock inference
(`yolo-worker.js` line 260). -/
def mockClasses : List String :=
  ["person", "cell phone", "laptop", "book", "remote", "tv"]

/-- The mock branch of `YOLOWorker.runInference` (`yolo-worker.js` lines
250-281).  `rand n` is the value of the `n`-th `Math.random()` call, in
source evaluation order: 0 is the `shouldDetect` draw (line 257, detection
happens when it exceeds 0.7), 1 the class pick (line 261), 2 the confidence,
3-6 the four `bbox` entries, 7-10 `centerX`, `centerY`, `width`, `height`.
Note that `classId` is `mockClasses.indexOf(randomClass)` — an index into
the six-entry mock set, not into the 80-entry COCO table. -/
def runInferenceMock (rand : ℕ → ℚ) : List Detection :=
  if rand 0 > 7 / 10 then
    let randomClass := mockClasses.getD (Int.toNat ⌊rand 1 * 6⌋) ""
    [{ classId := mockClasses.indexOf randomClass,
       className := randomClass,
       confidence := 1 / 2 + rand 2 * (2 / 5),
       bbox := ⟨100 + rand 3 * 200, 100 + rand 4 * 200,
                50 + rand 5 * 100, 50 + rand 6 * 100⟩,
       centerX := 200 + rand 7 * 200, centerY := 200 + rand 8 * 200,
       width := 50 + rand 9 * 100, height := 50 + rand 10 * 100 }]
  else []

/-- A queued frame as built by `YOLOWorker.processFrame` (`yolo-worker.js`
lines 130-135): the raw frame data only feeds the pipeline stages, which the
scheduling model abstracts as the `pipeline` parameter of `processQueue`
below, so the frame record keeps the generated id and the submission
timestamp. -/
structure Frame where
  id : String
  timestamp : ℚ
deriving DecidableEq, Repr

/-- The payload of a terminal `postMessage` emitted by
`YOLOWorker.processQueue`: a field present on the JavaScript message object
maps to `some`, an absent field to `none`. -/
structure EventMsg where
  type : String
  detections : Option (List Detection)
  timestamp : Option ℚ
  frameId : Option String
  error : Option String
deriving DecidableEq, Repr

/-- One iteration of `YOLOWorker.processQueue` (`yolo-worker.js` lines
161-191) on the dequeued frame: on success the `detectionResults` message
carries the detections together with the frame's timestamp and id (lines
177-182); on a stage failure the catch block emits an `error` message
carrying the error text and the frame's id — and no timestamp (lines
186-190).  `pipeline` abstracts the preprocess → inference → postprocess →
filter stages, which either produce a detection list or throw. -/
def processOneFrame (pipeline : Frame → Except String (List Detection))
    (f : Frame) : EventMsg :=
  match pipeline f with
  | .ok dets =>
    { type := "detectionResults", detections := some dets,
      timestamp := some f.timestamp, frameId := some f.id, error := none }
  | .error e =>
    { type := "error", detections := none,
      timestamp := none, frameId := some f.id, error := some e }

/-- The drain loop of `YOLOWorker.processQueue` (`yolo-worker.js` lines
154-195): frames are shifted from the head of `processingQueue` one at a
time, each producing exactly one terminal message (success or error) before
the loop reschedules itself (line 194); the `isProcessing` flag (lines 138,
160) and the worker's single-threaded event loop prevent two drains from
interleaving, so the drain is a sequential fold over the queued frames. -/
def processQueue (pipeline : Frame → Except String (List Detection)) :
    List Frame → List EventMsg
  | [] => []
  | f :: rest => processOneFrame pipeline f :: processQueue pipeline rest

/-- A one-row raw output tensor with stride 5 (four geometry values and one
class score): geometry `(0, 0, 10, 10)` and a single class score `0.6`. -/
def exampleRawOutput : ℕ → ℚ := fun k =>
  if k = 2 then 10 else if k = 3 then 10 else if k = 4 then 3 / 5 else 0

end YOLOWorker

section IoUAlgebra

open YOLOWorker YOLOModelLoader

lemma intersectionW_comm (b1 b2 : Box) : intersectionW b1 b2 = intersectionW b2 b1 := by
  unfold intersectionW; rw [min_comm, max_comm]

lemma intersectionH_comm (b1 b2 : Box) : intersectionH b1 b2 = intersectionH b2 b1 := by
  unfold intersectionH; rw [min_comm, max_comm]

lemma calculateIOU_comm (b1 b2 : Box) : calculateIOU b1 b2 = calculateIOU b2 b1 := by
  unfold calculateIOU
  rw [intersectionW_comm, intersectionH_comm,
    add_comm (b1.w * b1.h) (b2.w * b2.h)]

lemma xLeft_comm (b1 b2 : Box) : xLeft b1 b2 = xLeft b2 b1 := by
  unfold xLeft; rw [max_comm]

lemma yTop_comm (b1 b2 : Box) : yTop b1 b2 = yTop b2 b1 := by
  unfold yTop; rw [max_comm]

lemma xRight_comm (b1 b2 : Box) : xRight b1 b2 = xRight b2 b1 := by
  unfold xRight; rw [min_comm]

lemma yBottom_comm (b1 b2 : Box) : yBottom b1 b2 = yBottom b2 b1 := by
  unfold yBottom; rw [min_comm]

lemma unionArea_comm (b1 b2 : Box) : unionArea b1 b2 = unionArea b2 b1 := by
  unfold unionArea
  rw [xLeft_comm, xRight_comm, yTop_comm, yBottom_comm,
    add_comm (b1.w * b1.h) (b2.w * b2.h)]

lemma calculateIoU_comm (b1 b2 : Box) : calculateIoU b1 b2 = calculateIoU b2 b1 := by
  unfold calculateIoU
  rw [xLeft_comm, xRight_comm, yTop_comm, yBottom_comm, unionArea_comm]

lemma calculateIOU_self (b : Box) (hw : 0 < b.w) (hh : 0 < b.h) :
    calculateIOU b b = 1 := by
  unfold calculateIOU intersectionW intersectionH
  simp only [min_self, max_self, add_sub_cancel_left]
  rw [if_neg]
  · exact div_self (ne_of_gt (mul_pos hw hh))
  · push_neg
    exact ⟨hw, hh⟩

lemma calculateIoU_self (b : Box) (hw : 0 < b.w) (hh : 0 < b.h) :
    calculateIoU b b = 1 := by
  have hxr : xRight b b = b.x + b.w / 2 := by unfold xRight; rw [min_self]
  have hxl : xLeft b b = b.x - b.w / 2 := by unfold xLeft; rw [max_self]
  have hyb : yBottom b b = b.y + b.h / 2 := by unfold yBottom; rw [min_self]
  have hyt : yTop b b = b.y - b.h / 2 := by unfold yTop; rw [max_self]
  have hW : xRight b b - xLeft b b = b.w := by rw [hxr, hxl]; ring
  have hH : yBottom b b - yTop b b = b.h := by rw [hyb, hyt]; ring
  have hunion : unionArea b b = b.w * b.h := by
    unfold unionArea; rw [hW, hH]; ring
  unfold calculateIoU
  rw [if_neg]
  · rw [hW, hH, hunion, div_self (ne_of_gt (mul_pos hw hh))]
  · push_neg
    constructor
    · rw [hxr, hxl]; linarith
    · rw [hyb, hyt]; linarith

lemma intersectionW_le_left (b1 b2 : Box) : intersectionW b1 b2 ≤ b1.w := by
  have h1 : min (b1.x + b1.w) (b2.x + b2.w) ≤ b1.x + b1.w := min_le_left _ _
  have h2 : b1.x ≤ max b1.x b2.x := le_max_left _ _
  unfold intersectionW; linarith

lemma intersectionW_le_right (b1 b2 : Box) : intersectionW b1 b2 ≤ b2.w := by
  have h1 : min (b1.x + b1.w) (b2.x + b2.w) ≤ b2.x + b2.w := min_le_right _ _
  have h2 : b2.x ≤ max b1.x b2.x := le_max_right _ _
  unfold intersectionW; linarith

lemma intersectionH_le_left (b1 b2 : Box) : intersectionH b1 b2 ≤ b1.h := by
  have h1 : min (b1.y + b1.h) (b2.y + b2.h) ≤ b1.y + b1.h := min_le_left _ _
  have h2 : b1.y ≤ max b1.y b2.y := le_max_left _ _
  unfold intersectionH; linarith

lemma intersectionH_le_right (b1 b2 : Box) : intersectionH b1 b2 ≤ b2.h := by
  have h1 : min (b1.y + b1.h) (b2.y + b2.h) ≤ b2.y + b2.h := min_le_right _ _
  have h2 : b2.y ≤ max b1.y b2.y := le_max_right _ _
  unfold intersectionH; linarith

/-- In the corner-based implementation, whenever the intersection rectangle is
non-degenerate and the two boxes have positive dimensions, its area is bounded
by each box area and the divisor is strictly positive. -/
lemma worker_inter_union_bounds (b1 b2 : Box)
    (hw1 : 0 < b1.w) (hh1 : 0 < b1.h) (hw2 : 0 < b2.w) (hh2 : 0 < b2.h)
    (hiW : 0 ≤ intersectionW b1 b2) (hiH : 0 ≤ intersectionH b1 b2) :
    intersectionW b1 b2 * intersectionH b1 b2 ≤ b1.w * b1.h ∧
    intersectionW b1 b2 * intersectionH b1 b2 ≤ b2.w * b2.h ∧
    0 < b1.w * b1.h + b2.w * b2.h - intersectionW b1 b2 * intersectionH b1 b2 := by
  have hA : intersectionW b1 b2 * intersectionH b1 b2 ≤ b1.w * b1.h :=
    mul_le_mul (intersectionW_le_left b1 b2) (intersectionH_le_left b1 b2) hiH hw1.le
  have hB : intersectionW b1 b2 * intersectionH b1 b2 ≤ b2.w * b2.h :=
    mul_le_mul (intersectionW_le_right b1 b2) (intersectionH_le_right b1 b2) hiH hw2.le
  have hpos : 0 < b2.w * b2.h := mul_pos hw2 hh2
  exact ⟨hA, hB, by linarith⟩

lemma calculateIOU_bounds (b1 b2 : Box)
    (hw1 : 0 < b1.w) (hh1 : 0 < b1.h) (hw2 : 0 < b2.w) (hh2 : 0 < b2.h) :
    0 ≤ calculateIOU b1 b2 ∧ calculateIOU b1 b2 ≤ 1 := by
  simp only [calculateIOU]
  split_ifs with hguard
  · norm_num
  · push_neg at hguard
    obtain ⟨hiW, hiH⟩ := hguard
    obtain ⟨hA, hB, hunion⟩ :=
      worker_inter_union_bounds b1 b2 hw1 hh1 hw2 hh2 hiW.le hiH.le
    constructor
    · exact div_nonneg (mul_nonneg hiW.le hiH.le) (by linarith)
    · rw [div_le_one hunion]; linarith

lemma loader_interW_le_left (b1 b2 : Box) : xRight b1 b2 - xLeft b1 b2 ≤ b1.w := by
  have h1 : xRight b1 b2 ≤ b1.x + b1.w / 2 := min_le_left _ _
  have h2 : b1.x - b1.w / 2 ≤ xLeft b1 b2 := le_max_left _ _
  linarith

lemma loader_interW_le_right (b1 b2 : Box) : xRight b1 b2 - xLeft b1 b2 ≤ b2.w := by
  have h1 : xRight b1 b2 ≤ b2.x + b2.w / 2 := min_le_right _ _
  have h2 : b2.x - b2.w / 2 ≤ xLeft b1 b2 := le_max_right _ _
  linarith

lemma loader_interH_le_left (b1 b2 : Box) : yBottom b1 b2 - yTop b1 b2 ≤ b1.h := by
  have h1 : yBottom b1 b2 ≤ b1.y + b1.h / 2 := min_le_left _ _
  have h2 : b1.y - b1.h / 2 ≤ yTop b1 b2 := le_max_left _ _
  linarith

lemma loader_interH_le_right (b1 b2 : Box) : yBottom b1 b2 - yTop b1 b2 ≤ b2.h := by
  have h1 : yBottom b1 b2 ≤ b2.y + b2.h / 2 := min_le_right _ _
  have h2 : b2.y - b2.h / 2 ≤ yTop b1 b2 := le_max_right _ _
  linarith

/-- In the centre-based implementation, whenever the guard does not trigger
and the two boxes have positive dimensions, the intersection area is bounded
by each box area and the divisor `unionArea` is strictly positive. -/
lemma loader_inter_union_bounds (b1 b2 : Box)
    (hw1 : 0 < b1.w) (hh1 : 0 < b1.h) (hw2 : 0 < b2.w) (hh2 : 0 < b2.h)
    (hx : xLeft b1 b2 ≤ xRight b1 b2) (hy : yTop b1 b2 ≤ yBottom b1 b2) :
    (xRight b1 b2 - xLeft b1 b2) * (yBottom b1 b2 - yTop b1 b2) ≤ b1.w * b1.h ∧
    (xRight b1 b2 - xLeft b1 b2) * (yBottom b1 b2 - yTop b1 b2) ≤ b2.w * b2.h ∧
    0 < unionArea b1 b2 := by
  have hiW : 0 ≤ xRight b1 b2 - xLeft b1 b2 := by linarith
  have hiH : 0 ≤ yBottom b1 b2 - yTop b1 b2 := by linarith
  have hA : (xRight b1 b2 - xLeft b1 b2) * (yBottom b1 b2 - yTop b1 b2) ≤ b1.w * b1.h :=
    mul_le_mul (loader_interW_le_left b1 b2) (loader_interH_le_left b1 b2) hiH hw1.le
  have hB : (xRight b1 b2 - xLeft b1 b2) * (yBottom b1 b2 - yTop b1 b2) ≤ b2.w * b2.h :=
    mul_le_mul (loader_interW_le_right b1 b2) (loader_interH_le_right b1 b2) hiH hw2.le
  have hpos : 0 < b2.w * b2.h := mul_pos hw2 hh2
  exact ⟨hA, hB, by unfold unionArea; linarith⟩

lemma calculateIoU_bounds (b1 b2 : Box)
    (hw1 : 0 < b1.w) (hh1 : 0 < b1.h) (hw2 : 0 < b2.w) (hh2 : 0 < b2.h) :
    0 ≤ calculateIoU b1 b2 ∧ calculateIoU b1 b2 ≤ 1 := by
  simp only [calculateIoU]
  split_ifs with hguard
  · norm_num
  · push_neg at hguard
    obtain ⟨hx, hy⟩ := hguard
    obtain ⟨hA, hB, hunion⟩ :=
      loader_inter_union_bounds b1 b2 hw1 hh1 hw2 hh2 hx hy
    have hiW : 0 ≤ xRight b1 b2 - xLeft b1 b2 := by linarith
    have hiH : 0 ≤ yBottom b1 b2 - yTop b1 b2 := by linarith
    constructor
    · exact div_nonneg (mul_nonneg hiW hiH) hunion.le
    · rw [div_le_one hunion]; unfold unionArea; linarith

/-- The centre-based source implementation agrees everywhere (over `ℚ`) with
the spec's centre-based IoU formula. -/
lemma calculateIoU_eq_centerIoUSpec (b1 b2 : Box) :
    calculateIoU b1 b2 = centerIoUSpec b1 b2 := by
  have exr : min (b1.x + b1.w / 2) (b2.x + b2.w / 2) = xRight b1 b2 := rfl
  have exl : max (b1.x - b1.w / 2) (b2.x - b2.w / 2) = xLeft b1 b2 := rfl
  have eyb : min (b1.y + b1.h / 2) (b2.y + b2.h / 2) = yBottom b1 b2 := rfl
  have eyt : max (b1.y - b1.h / 2) (b2.y - b2.h / 2) = yTop b1 b2 := rfl
  simp only [centerIoUSpec, exr, exl, eyb, eyt, calculateIoU, unionArea]
  rcases lt_or_le (xRight b1 b2) (xLeft b1 b2) with hx | hx
  · rw [if_pos (Or.inl hx), max_eq_left (by linarith :
      xRight b1 b2 - xLeft b1 b2 ≤ 0), zero_mul, zero_div]
  · rcases lt_or_le (yBottom b1 b2) (yTop b1 b2) with hy | hy
    · rw [if_pos (Or.inr hy), max_eq_left (by linarith :
        yBottom b1 b2 - yTop b1 b2 ≤ 0), mul_zero, zero_div]
    · rw [if_neg (by push_neg; exact ⟨hx, hy⟩),
        max_eq_right (by linarith : (0:ℚ) ≤ xRight b1 b2 - xLeft b1 b2),
        max_eq_right (by linarith : (0:ℚ) ≤ yBottom b1 b2 - yTop b1 b2)]

/-- The corner-based source implementation agrees everywhere (over `ℚ`) with
the spec's description of the corner-based convention. -/
lemma calculateIOU_eq_cornerIoUSpec (b1 b2 : Box) :
    calculateIOU b1 b2 = cornerIoUSpec b1 b2 := by
  have eW : min (b1.x + b1.w) (b2.x + b2.w) - max b1.x b2.x = intersectionW b1 b2 := rfl
  have eH : min (b1.y + b1.h) (b2.y + b2.h) - max b1.y b2.y = intersectionH b1 b2 := rfl
  simp only [cornerIoUSpec, eW, eH, calculateIOU]
  rcases le_or_lt (intersectionW b1 b2) 0 with hW | hW
  · rw [if_pos (Or.inl hW), max_eq_left hW, zero_mul, zero_div]
  · rcases le_or_lt (intersectionH b1 b2) 0 with hH | hH
    · rw [if_pos (Or.inr hH), max_eq_left hH, mul_zero, zero_div]
    · rw [if_neg (by push_neg; exact ⟨hW, hH⟩),
        max_eq_right hW.le, max_eq_right hH.le]

end IoUAlgebra

/-- Claim C5 (amended): the two source implementations do not share a box
convention.  `YOLOModelLoader.calculateIoU` computes the intersection over
the centre-based rectangles `[x - w/2, x + w/2] × [y - h/2, y + h/2]` as the
claim states, but `YOLOWorker.calculateIOU` computes it over the corner-based
rectangles `[x, x + w] × [y, y + h]`. -/
theorem iou_convention_per_implementation (b1 b2 : Box) :
    YOLOModelLoader.calculateIoU b1 b2 = centerIoUSpec b1 b2 ∧
    YOLOWorker.calculateIOU b1 b2 = cornerIoUSpec b1 b2 :=
  ⟨calculateIoU_eq_centerIoUSpec b1 b2, calculateIOU_eq_cornerIoUSpec b1 b2⟩

/-- Claim C5 counterexample: on boxes `(0,0,2,2)` and `(2,0,6,2)` the worker's
IoU returns 0 while the centre-based convention mandated by the claim gives
1/3, so the worker implementation does not compute the centre-based
intersection. -/
theorem iou_convention_counterexample :
    YOLOWorker.calculateIOU ⟨0, 0, 2, 2⟩ ⟨2, 0, 6, 2⟩ = 0 ∧
    centerIoUSpec ⟨0, 0, 2, 2⟩ ⟨2, 0, 6, 2⟩ = 1 / 3 ∧
    YOLOWorker.calculateIOU ⟨0, 0, 2, 2⟩ ⟨2, 0, 6, 2⟩ ≠
      centerIoUSpec ⟨0, 0, 2, 2⟩ ⟨2, 0, 6, 2⟩ := by
  have h1 : YOLOWorker.calculateIOU ⟨0, 0, 2, 2⟩ ⟨2, 0, 6, 2⟩ = 0 := by
    norm_num [YOLOWorker.calculateIOU, YOLOWorker.intersectionW,
      YOLOWorker.intersectionH, min_def, max_def]
  have h2 : centerIoUSpec ⟨0, 0, 2, 2⟩ ⟨2, 0, 6, 2⟩ = 1 / 3 := by
    norm_num [centerIoUSpec, min_def, max_def]
  exact ⟨h1, h2, by rw [h1, h2]; norm_num⟩

/-- Claim C9: both IoU implementations are symmetric on all box pairs, and on
a box with positive width and height (the reading of "positive area" for a
geometric box) both return exactly 1 against the box itself. -/
theorem iou_symmetry_and_self :
    (∀ A B : Box, YOLOWorker.calculateIOU A B = YOLOWorker.calculateIOU B A ∧
       YOLOModelLoader.calculateIoU A B = YOLOModelLoader.calculateIoU B A) ∧
    (∀ A : Box, 0 < A.w → 0 < A.h →
       YOLOWorker.calculateIOU A A = 1 ∧ YOLOModelLoader.calculateIoU A A = 1) :=
  ⟨fun A B => ⟨calculateIOU_comm A B, calculateIoU_comm A B⟩,
   fun A hw hh => ⟨calculateIOU_self A hw hh, calculateIoU_self A hw hh⟩⟩

/-- Witness for C9 at the concrete box `(5, 6, 2, 3)`. -/
theorem iou_symmetry_and_self_witness :
    0 < (2 : ℚ) ∧ 0 < (3 : ℚ) ∧
    YOLOWorker.calculateIOU ⟨5, 6, 2, 3⟩ ⟨5, 6, 2, 3⟩ = 1 ∧
    YOLOModelLoader.calculateIoU ⟨5, 6, 2, 3⟩ ⟨5, 6, 2, 3⟩ = 1 :=
  ⟨by norm_num, by norm_num,
   (iou_symmetry_and_self.2 ⟨5, 6, 2, 3⟩ (by norm_num) (by norm_num)).1,
   (iou_symmetry_and_self.2 ⟨5, 6, 2, 3⟩ (by norm_num) (by norm_num)).2⟩

/-- Claim C10: for boxes with strictly positive widths and heights both IoU
implementations return a value in `[0, 1]`; when the intersection is
non-degenerate its area is bounded by each box area, so the divisor is
strictly positive and the division is well defined.  Without the
precondition the centre-based division is unguarded: two touching zero-width
boxes pass its guard with divisor 0 (`0/0`, `NaN` in JavaScript). -/
theorem iou_total_and_in_unit_range (b1 b2 : Box)
    (hw1 : 0 < b1.w) (hh1 : 0 < b1.h) (hw2 : 0 < b2.w) (hh2 : 0 < b2.h) :
    (0 ≤ YOLOWorker.calculateIOU b1 b2 ∧ YOLOWorker.calculateIOU b1 b2 ≤ 1) ∧
    (0 ≤ YOLOModelLoader.calculateIoU b1 b2 ∧ YOLOModelLoader.calculateIoU b1 b2 ≤ 1) ∧
    (0 ≤ YOLOWorker.intersectionW b1 b2 → 0 ≤ YOLOWorker.intersectionH b1 b2 →
       YOLOWorker.intersectionW b1 b2 * YOLOWorker.intersectionH b1 b2 ≤ b1.w * b1.h ∧
       YOLOWorker.intersectionW b1 b2 * YOLOWorker.intersectionH b1 b2 ≤ b2.w * b2.h ∧
       0 < b1.w * b1.h + b2.w * b2.h -
         YOLOWorker.intersectionW b1 b2 * YOLOWorker.intersectionH b1 b2) ∧
    (YOLOModelLoader.xLeft b1 b2 ≤ YOLOModelLoader.xRight b1 b2 →
     YOLOModelLoader.yTop b1 b2 ≤ YOLOModelLoader.yBottom b1 b2 →
       (YOLOModelLoader.xRight b1 b2 - YOLOModelLoader.xLeft b1 b2) *
         (YOLOModelLoader.yBottom b1 b2 - YOLOModelLoader.yTop b1 b2) ≤ b1.w * b1.h ∧
       (YOLOModelLoader.xRight b1 b2 - YOLOModelLoader.xLeft b1 b2) *
         (YOLOModelLoader.yBottom b1 b2 - YOLOModelLoader.yTop b1 b2) ≤ b2.w * b2.h ∧
       0 < YOLOModelLoader.unionArea b1 b2) ∧
    (YOLOModelLoader.unionArea ⟨0, 0, 0, 5⟩ ⟨0, 0, 0, 5⟩ = 0 ∧
       ¬(YOLOModelLoader.xRight ⟨0, 0, 0, 5⟩ ⟨0, 0, 0, 5⟩ <
           YOLOModelLoader.xLeft ⟨0, 0, 0, 5⟩ ⟨0, 0, 0, 5⟩ ∨
         YOLOModelLoader.yBottom ⟨0, 0, 0, 5⟩ ⟨0, 0, 0, 5⟩ <
           YOLOModelLoader.yTop ⟨0, 0, 0, 5⟩ ⟨0, 0, 0, 5⟩)) :=
  ⟨calculateIOU_bounds b1 b2 hw1 hh1 hw2 hh2,
   calculateIoU_bounds b1 b2 hw1 hh1 hw2 hh2,
   fun hiW hiH => worker_inter_union_bounds b1 b2 hw1 hh1 hw2 hh2 hiW hiH,
   fun hx hy => loader_inter_union_bounds b1 b2 hw1 hh1 hw2 hh2 hx hy,
   by norm_num [YOLOModelLoader.unionArea, YOLOModelLoader.xRight, YOLOModelLoader.xLeft,
     YOLOModelLoader.yBottom, YOLOModelLoader.yTop, min_def, max_def],
   by norm_num [YOLOModelLoader.xRight, YOLOModelLoader.xLeft,
     YOLOModelLoader.yBottom, YOLOModelLoader.yTop, min_def, max_def]⟩

/-- Witness for C10 at the concrete boxes `(0,0,4,2)` and `(1,1,2,2)`. -/
theorem iou_total_and_in_unit_range_witness :
    0 < (4 : ℚ) ∧ 0 < (2 : ℚ) ∧
    0 ≤ YOLOWorker.calculateIOU ⟨0, 0, 4, 2⟩ ⟨1, 1, 2, 2⟩ ∧
    YOLOModelLoader.calculateIoU ⟨0, 0, 4, 2⟩ ⟨1, 1, 2, 2⟩ ≤ 1 :=
  ⟨by norm_num, by norm_num,
   (iou_total_and_in_unit_range ⟨0, 0, 4, 2⟩ ⟨1, 1, 2, 2⟩
     (by norm_num) (by norm_num) (by norm_num) (by norm_num)).1.1,
   (iou_total_and_in_unit_range ⟨0, 0, 4, 2⟩ ⟨1, 1, 2, 2⟩
     (by norm_num) (by norm_num) (by norm_num) (by norm_num)).2.1.2⟩

section DecodeLemmas

lemma bestClass_succ (score : ℕ → ℚ) (n : ℕ) :
    bestClass score (n + 1) =
      if score n > (bestClass score n).1 then (score n, n) else bestClass score n := by
  unfold bestClass
  rw [List.range_succ, List.foldl_append]
  simp only [List.foldl_cons, List.foldl_nil]

/-- Correctness of the class-score scan: the result is the non-negative
maximum of zero and all scores, and when that maximum is positive it is
attained at the returned index, which is the first index attaining it. -/
lemma bestClass_spec (score : ℕ → ℚ) (n : ℕ) :
    0 ≤ (bestClass score n).1 ∧
    (∀ k, k < n → score k ≤ (bestClass score n).1) ∧
    (0 < (bestClass score n).1 →
      (bestClass score n).2 < n ∧
      score (bestClass score n).2 = (bestClass score n).1 ∧
      ∀ k, k < (bestClass score n).2 → score k < (bestClass score n).1) := by
  induction n with
  | zero => simp [bestClass]
  | succ m ih =>
    obtain ⟨ih0, ihmax, ihattain⟩ := ih
    rw [bestClass_succ]
    split_ifs with h
    · refine ⟨le_trans ih0 h.le, ?_, ?_⟩
      · intro k hk
        rcases Nat.lt_succ_iff_lt_or_eq.mp hk with hk | rfl
        · exact le_trans (ihmax k hk) h.le
        · exact le_refl _
      · intro _
        refine ⟨Nat.lt_succ_self m, rfl, ?_⟩
        intro k hk
        exact lt_of_le_of_lt (ihmax k hk) h
    · refine ⟨ih0, ?_, ?_⟩
      · intro k hk
        rcases Nat.lt_succ_iff_lt_or_eq.mp hk with hk | rfl
        · exact ihmax k hk
        · exact not_lt.mp h
      · intro hpos
        obtain ⟨hlt, hattain, hstrict⟩ := ihattain hpos
        exact ⟨Nat.lt_succ_of_lt hlt, hattain, hstrict⟩

/-- A row emits a candidate exactly when its scanned maximum strictly exceeds
the threshold used by the row filter. -/
lemma decodeRow_eq_some_iff (table : List String) (thr : ℚ) (data : ℕ → ℚ)
    (stride i : ℕ) :
    (∃ d, decodeRow table thr data stride i = some d) ↔
      thr < (bestClass (fun j => data (i * stride + 4 + j)) (stride - 4)).1 := by
  constructor
  · rintro ⟨d, hd⟩
    simp only [decodeRow] at hd
    by_contra hc
    rw [if_neg hc] at hd
    exact Option.noConfusion hd
  · intro hc
    exact ⟨_, by simp only [decodeRow]; rw [if_pos hc]⟩

lemma decodeRow_some_fields {table : List String} {thr : ℚ} {data : ℕ → ℚ}
    {stride i : ℕ} {d : Detection}
    (h : decodeRow table thr data stride i = some d) :
    thr < d.confidence ∧
    d.confidence = (bestClass (fun j => data (i * stride + 4 + j)) (stride - 4)).1 ∧
    d.classId = (bestClass (fun j => data (i * stride + 4 + j)) (stride - 4)).2 ∧
    d.bbox = ⟨data (i * stride + 0), data (i * stride + 1),
              data (i * stride + 2), data (i * stride + 3)⟩ := by
  simp only [decodeRow] at h
  by_cases hc :
    (bestClass (fun j => data (i * stride + 4 + j)) (stride - 4)).1 > thr
  · rw [if_pos hc] at h
    obtain rfl := Option.some.inj h
    exact ⟨hc, rfl, rfl, rfl⟩
  · rw [if_neg hc] at h
    exact Option.noConfusion h

/-- Every candidate emitted by the row loop has confidence strictly above the
threshold the row filter compared against. -/
lemma decodeCandidates_confidence {table : List String} {thr : ℚ} {data : ℕ → ℚ}
    {stride numDet : ℕ} {d : Detection}
    (h : d ∈ decodeCandidates table thr data stride numDet) : thr < d.confidence := by
  unfold decodeCandidates at h
  obtain ⟨i, _, hrow⟩ := List.mem_filterMap.mp h
  exact (decodeRow_some_fields hrow).1

end DecodeLemmas

section NMSLemmas

lemma nmsWalk_sublist (thr : ℚ) (l : List Detection) :
    ∀ kept, (YOLOWorker.nmsWalk thr kept l).Sublist (kept ++ l) := by
  induction l with
  | nil => intro kept; simp [YOLOWorker.nmsWalk]
  | cons d rest ih =>
    intro kept
    simp only [YOLOWorker.nmsWalk]
    split_ifs with h
    · exact (ih kept).trans ((List.sublist_cons_self d rest).append_left kept)
    · have h2 := ih (kept ++ [d])
      rw [List.append_assoc, List.singleton_append] at h2
      exact h2

lemma nmsWalk_pairwise (thr : ℚ) (l : List Detection) :
    ∀ kept,
      kept.Pairwise (fun a b => YOLOWorker.calculateIOU b.bbox a.bbox ≤ thr) →
      (YOLOWorker.nmsWalk thr kept l).Pairwise
        (fun a b => YOLOWorker.calculateIOU b.bbox a.bbox ≤ thr) := by
  induction l with
  | nil => intro kept hk; simpa [YOLOWorker.nmsWalk] using hk
  | cons d rest ih =>
    intro kept hk
    simp only [YOLOWorker.nmsWalk]
    split_ifs with h
    · exact ih kept hk
    · apply ih
      rw [List.pairwise_append]
      refine ⟨hk, List.pairwise_singleton _ _, ?_⟩
      intro a ha b hb
      rw [List.mem_singleton] at hb
      subst hb
      simp only [List.any_eq_true, decide_eq_true_eq, not_exists, not_and, not_lt] at h
      exact h a ha

lemma nmsFilter_sublist (thr : ℚ) (l : List Detection) :
    (YOLOModelLoader.nmsFilter thr l).Sublist l := by
  induction l using YOLOModelLoader.nmsFilter.induct thr with
  | case1 => simp [YOLOModelLoader.nmsFilter]
  | case2 d rest ih =>
    rw [YOLOModelLoader.nmsFilter]
    exact (ih.trans (List.filter_sublist rest)).cons₂ d

lemma nmsFilter_pairwise (thr : ℚ) (l : List Detection) :
    (YOLOModelLoader.nmsFilter thr l).Pairwise
      (fun a b => YOLOModelLoader.calculateIoU a.bbox b.bbox ≤ thr) := by
  induction l using YOLOModelLoader.nmsFilter.induct thr with
  | case1 => simp [YOLOModelLoader.nmsFilter]
  | case2 d rest ih =>
    rw [YOLOModelLoader.nmsFilter, List.pairwise_cons]
    refine ⟨?_, ih⟩
    intro b hb
    have hb2 := (nmsFilter_sublist thr _).subset hb
    have := List.of_mem_filter hb2
    simpa using this

end NMSLemmas

section ThresholdLemmas

lemma clamp_mem (v : ℚ) :
    1 / 10 ≤ max (1 / 10) (min 1 v) ∧ max (1 / 10) (min 1 v) ≤ 1 :=
  ⟨le_max_left _ _, max_le (by norm_num) (min_le_left _ _)⟩

lemma loader_update_inRange (t : ThresholdUpdate) (s : YOLOModelLoader.State)
    (hs : s.inRange) : (YOLOModelLoader.updateThresholds t s).inRange := by
  obtain ⟨h1, h2, h3, h4⟩ := hs
  unfold YOLOModelLoader.updateThresholds YOLOModelLoader.State.inRange
  rcases t.confidence with _ | v <;> rcases t.nms with _ | w <;>
    simp only <;>
    exact ⟨by first | assumption | exact (clamp_mem _).1,
           by first | assumption | exact (clamp_mem _).2,
           by first | assumption | exact (clamp_mem _).1,
           by first | assumption | exact (clamp_mem _).2⟩

lemma loader_fold_inRange (us : List ThresholdUpdate) :
    (us.foldl (fun st u => YOLOModelLoader.updateThresholds u st)
      YOLOModelLoader.initState).inRange := by
  suffices h : ∀ s : YOLOModelLoader.State, s.inRange →
      (us.foldl (fun st u => YOLOModelLoader.updateThresholds u st) s).inRange by
    exact h YOLOModelLoader.initState
      (by norm_num [YOLOModelLoader.initState, YOLOModelLoader.State.inRange])
  induction us with
  | nil => intro s hs; exact hs
  | cons u rest ih =>
    intro s hs
    exact ih _ (loader_update_inRange u s hs)

end ThresholdLemmas

/-- Claim C3 (amended): the loader's `updateThresholds` clamps each provided
value into `[0.1, 1.0]` and leaves absent fields unchanged, so from any
in-range state — in particular after any sequence of updates from the
initial `(0.5, 0.4)` — both stored loader thresholds stay in `[0.1, 1.0]`.
The worker's `updateThresholds`, by contrast, stores provided values
verbatim without clamping (see the counterexample). -/
theorem threshold_store_clamps (t : ThresholdUpdate) (s : YOLOModelLoader.State)
    (hs : s.inRange) (us : List ThresholdUpdate) :
    (YOLOModelLoader.updateThresholds t s).inRange ∧
    (∀ v, t.confidence = some v →
      (YOLOModelLoader.updateThresholds t s).confidenceThreshold =
        max (1 / 10) (min 1 v)) ∧
    (t.confidence = none →
      (YOLOModelLoader.updateThresholds t s).confidenceThreshold =
        s.confidenceThreshold) ∧
    (∀ v, t.nms = some v →
      (YOLOModelLoader.updateThresholds t s).nmsThreshold = max (1 / 10) (min 1 v)) ∧
    (t.nms = none →
      (YOLOModelLoader.updateThresholds t s).nmsThreshold = s.nmsThreshold) ∧
    (us.foldl (fun st u => YOLOModelLoader.updateThresholds u st)
      YOLOModelLoader.initState).inRange := by
  refine ⟨loader_update_inRange t s hs, ?_, ?_, ?_, ?_, loader_fold_inRange us⟩
  · intro v hv; simp [YOLOModelLoader.updateThresholds, hv]
  · intro hv; simp [YOLOModelLoader.updateThresholds, hv]
  · intro v hv; simp [YOLOModelLoader.updateThresholds, hv]
  · intro hv; simp [YOLOModelLoader.updateThresholds, hv]

/-- Witness for C3 (amended) at the spec's own examples: updating the loader
with confidence 5.0 stores 1.0 and updating with nms −3 stores 0.1, and the
state stays in range. -/
theorem threshold_store_clamps_witness :
    YOLOModelLoader.initState.inRange ∧
    (YOLOModelLoader.updateThresholds ⟨some 5, some (-3)⟩
      YOLOModelLoader.initState).confidenceThreshold = 1 ∧
    (YOLOModelLoader.updateThresholds ⟨some 5, some (-3)⟩
      YOLOModelLoader.initState).nmsThreshold = 1 / 10 ∧
    (YOLOModelLoader.updateThresholds ⟨some 5, some (-3)⟩
      YOLOModelLoader.initState).inRange :=
  ⟨by norm_num [YOLOModelLoader.initState, YOLOModelLoader.State.inRange],
   by norm_num [YOLOModelLoader.updateThresholds, min_def, max_def],
   by norm_num [YOLOModelLoader.updateThresholds, min_def, max_def],
   (threshold_store_clamps ⟨some 5, some (-3)⟩ YOLOModelLoader.initState
     (by norm_num [YOLOModelLoader.initState, YOLOModelLoader.State.inRange]) []).1⟩

/-- Claim C3 counterexample: the worker's `updateThresholds` does not clamp.
Updating the worker's confidence threshold to 5.0 stores 5.0 — not the 1.0
the claim requires — leaving the stored value outside `[0.1, 1.0]`. -/
theorem threshold_store_counterexample :
    (YOLOWorker.updateThresholds ⟨some 5, none⟩
      YOLOWorker.initialModel).confidenceThreshold = 5 ∧
    ¬ ((YOLOWorker.updateThresholds ⟨some 5, none⟩
      YOLOWorker.initialModel).confidenceThreshold ≤ 1) := by
  constructor
  · rfl
  · norm_num [YOLOWorker.updateThresholds, YOLOWorker.initialModel]

/-- Claim C2 (amended): both suppression implementations sort by confidence
descending and then greedily discard a detection exactly when its IoU with
some already-kept detection strictly exceeds `nmsThreshold` (the test is
`iou > threshold`, not `≥`); consequently every pair of surviving detections
has IoU at most `nmsThreshold` — equality at the threshold is reachable —
and every survivor is one of the input detections. -/
theorem nms_survivors_pairwise_bounded (m : YOLOWorker.Model)
    (s : YOLOModelLoader.State) (dets : List Detection) :
    (YOLOWorker.applyNMS m dets).Pairwise
      (fun a b => YOLOWorker.calculateIOU a.bbox b.bbox ≤ m.nmsThreshold) ∧
    YOLOWorker.applyNMS m dets ⊆ dets ∧
    (YOLOModelLoader.applyNMS s dets).Pairwise
      (fun a b => YOLOModelLoader.calculateIoU a.bbox b.bbox ≤ s.nmsThreshold) ∧
    YOLOModelLoader.applyNMS s dets ⊆ dets := by
  refine ⟨?_, ?_, ?_, ?_⟩
  · have h := nmsWalk_pairwise m.nmsThreshold (sortByConfidence dets) []
      List.Pairwise.nil
    exact h.imp fun hab => by rwa [calculateIOU_comm]
  · intro d hd
    have hsub := nmsWalk_sublist m.nmsThreshold (sortByConfidence dets) []
    rw [List.nil_append] at hsub
    exact (List.perm_insertionSort _ dets).subset (hsub.subset hd)
  · exact nmsFilter_pairwise s.nmsThreshold (sortByConfidence dets)
  · intro d hd
    have hsub := nmsFilter_sublist s.nmsThreshold (sortByConfidence dets)
    exact (List.perm_insertionSort _ dets).subset (hsub.subset hd)

/-- Claim C2 counterexample: with `nmsThreshold = 0.5`, two detections whose
boxes have IoU exactly 0.5 under the worker implementation both survive
`applyNMS` (the discard test is strict), so the surviving pair's IoU equals
the threshold instead of being strictly below it, and a candidate whose IoU
with a kept detection is `≥ nmsThreshold` is not discarded as the claim
requires. -/
theorem nms_counterexample :
    YOLOWorker.calculateIOU ⟨0, 0, 2, 1⟩ ⟨0, 0, 1, 1⟩ = 1 / 2 ∧
    YOLOWorker.applyNMS ⟨1 / 2, 1 / 2⟩
        [⟨0, "person", 9 / 10, ⟨0, 0, 2, 1⟩, 0, 0, 2, 1⟩,
         ⟨0, "person", 4 / 5, ⟨0, 0, 1, 1⟩, 0, 0, 1, 1⟩] =
      [⟨0, "person", 9 / 10, ⟨0, 0, 2, 1⟩, 0, 0, 2, 1⟩,
       ⟨0, "person", 4 / 5, ⟨0, 0, 1, 1⟩, 0, 0, 1, 1⟩] ∧
    ¬ (YOLOWorker.applyNMS ⟨1 / 2, 1 / 2⟩
        [⟨0, "person", 9 / 10, ⟨0, 0, 2, 1⟩, 0, 0, 2, 1⟩,
         ⟨0, "person", 4 / 5, ⟨0, 0, 1, 1⟩, 0, 0, 1, 1⟩]).Pairwise
        (fun a b => YOLOWorker.calculateIOU a.bbox b.bbox < 1 / 2) := by
  have hiou : YOLOWorker.calculateIOU ⟨0, 0, 2, 1⟩ ⟨0, 0, 1, 1⟩ = 1 / 2 := by
    norm_num [YOLOWorker.calculateIOU, YOLOWorker.intersectionW,
      YOLOWorker.intersectionH, min_def, max_def]
  have hiou2 : YOLOWorker.calculateIOU ⟨0, 0, 1, 1⟩ ⟨0, 0, 2, 1⟩ = 1 / 2 := by
    norm_num [YOLOWorker.calculateIOU, YOLOWorker.intersectionW,
      YOLOWorker.intersectionH, min_def, max_def]
  have hrun : YOLOWorker.applyNMS ⟨1 / 2, 1 / 2⟩
      [⟨0, "person", 9 / 10, ⟨0, 0, 2, 1⟩, 0, 0, 2, 1⟩,
       ⟨0, "person", 4 / 5, ⟨0, 0, 1, 1⟩, 0, 0, 1, 1⟩] =
      [⟨0, "person", 9 / 10, ⟨0, 0, 2, 1⟩, 0, 0, 2, 1⟩,
       ⟨0, "person", 4 / 5, ⟨0, 0, 1, 1⟩, 0, 0, 1, 1⟩] := by
    norm_num [YOLOWorker.applyNMS, sortByConfidence, List.insertionSort,
      List.orderedInsert, YOLOWorker.nmsWalk, hiou2]
  refine ⟨hiou, hrun, ?_⟩
  rw [hrun]
  simp only [List.pairwise_cons, List.mem_singleton, List.mem_cons,
    List.not_mem_nil, or_false, forall_eq, List.Pairwise.nil, and_true,
    not_forall, not_lt]
  intro hcon
  rw [hiou] at hcon
  exact absurd hcon (by norm_num)

/-- Helper evaluation for C1: the candidate loop on the one-row example
tensor emits exactly one detection with confidence 0.6 when the row filter
uses the worker's literal 0.5 cut-off. -/
lemma decode_example_at_half :
    decodeCandidates cocoClassNames (1 / 2) YOLOWorker.exampleRawOutput 5 1 =
      [{ classId := 0, className := "person", confidence := 3 / 5,
         bbox := ⟨0, 0, 10, 10⟩, centerX := 0, centerY := 0,
         width := 10, height := 10 }] := by
  norm_num [decodeCandidates, decodeRow, bestClass, List.range_succ,
    List.range_zero, List.foldl_append, List.foldl_cons, List.foldl_nil,
    List.filterMap_cons, List.filterMap_nil, List.getD, List.get?,
    YOLOWorker.exampleRawOutput, cocoClassNames]

/-- Helper evaluation for C1: the candidate loop on the same tensor emits
nothing when the row filter honours the active threshold 0.9, since the
row maximum 0.6 is below it. -/
lemma decode_example_at_active :
    decodeCandidates cocoClassNames (9 / 10) YOLOWorker.exampleRawOutput 5 1 = [] := by
  norm_num [decodeCandidates, decodeRow, bestClass, List.range_succ,
    List.range_zero, List.foldl_append, List.foldl_cons, List.foldl_nil,
    List.filterMap_cons, List.filterMap_nil,
    YOLOWorker.exampleRawOutput]

/-- Claim C1 (code bug in the worker): the worker's decoder row filter
compares the scanned maximum against the literal 0.5 instead of the active
`confidenceThreshold`.  After `updateThresholds` raises the worker's stored
confidence threshold to 0.9, `postprocessDetections` still emits a detection
with confidence 0.6 — not above the active threshold — whereas the loader's
decoder on the identical tensor with the same active threshold emits
nothing. -/
theorem decoder_ignores_active_threshold :
    (YOLOWorker.updateThresholds ⟨some (9 / 10), none⟩
      YOLOWorker.initialModel).confidenceThreshold = 9 / 10 ∧
    (YOLOWorker.postprocessDetections
        (YOLOWorker.updateThresholds ⟨some (9 / 10), none⟩ YOLOWorker.initialModel)
        YOLOWorker.exampleRawOutput 5 1).map Detection.confidence = [3 / 5] ∧
    ¬ ((9 / 10 : ℚ) < 3 / 5) ∧
    YOLOModelLoader.postprocessDetections ⟨9 / 10, 2 / 5⟩
      YOLOWorker.exampleRawOutput 5 1 = [] := by
  refine ⟨rfl, ?_, by norm_num, ?_⟩
  · have hm : YOLOWorker.updateThresholds ⟨some (9 / 10), none⟩
        YOLOWorker.initialModel = ⟨9 / 10, 2 / 5⟩ := rfl
    rw [hm]
    rw [YOLOWorker.postprocessDetections, decode_example_at_half]
    simp [YOLOWorker.applyNMS, sortByConfidence, List.insertionSort,
      List.orderedInsert, YOLOWorker.nmsWalk]
  · rw [YOLOModelLoader.postprocessDetections]
    have : (⟨9 / 10, 2 / 5⟩ : YOLOModelLoader.State).confidenceThreshold = 9 / 10 := rfl
    rw [this, decode_example_at_active]
    simp [YOLOModelLoader.applyNMS, sortByConfidence, List.insertionSort,
      YOLOModelLoader.nmsFilter]

/-- Every value the conversion loop emits is a byte divided by 255, hence in
the unit interval. -/
lemma imageDataToTensor_mem_unit :
    ∀ (data : List (Fin 256)), ∀ q ∈ imageDataToTensor data, 0 ≤ q ∧ q ≤ 1
  | r :: g :: b :: _a :: rest, q, hq => by
    rw [imageDataToTensor] at hq
    have bound : ∀ c : Fin 256, 0 ≤ ((c : ℕ) : ℚ) / 255 ∧ ((c : ℕ) : ℚ) / 255 ≤ 1 := by
      intro c
      constructor
      · positivity
      · rw [div_le_one (by norm_num)]
        exact_mod_cast Nat.lt_succ_iff.mp c.isLt
    rcases List.mem_cons.mp hq with rfl | hq
    · exact bound r
    rcases List.mem_cons.mp hq with rfl | hq
    · exact bound g
    rcases List.mem_cons.mp hq with rfl | hq
    · exact bound b
    exact imageDataToTensor_mem_unit rest q hq
  | [], q, hq => by simp [imageDataToTensor] at hq
  | [r], q, hq => by simp [imageDataToTensor] at hq
  | [r, g], q, hq => by simp [imageDataToTensor] at hq
  | [r, g, b], q, hq => by simp [imageDataToTensor] at hq

/-- Claim C4 (code bug): the conversion loop writes each pixel's three
colour channels consecutively, so pixel `p`'s channel `c` lands at flat
index `3*p + c` — an interleaved layout — whereas the claim (and the input
tensor dims `[1, 3, 640, 640]` that both sources declare when wrapping this
very buffer) require the planar layout placing it at `c * pixelCount + p`.
On a two-pixel RGBA buffer the loop's output and the planar layout of the
same bytes demonstrably differ; normalisation itself is as claimed (each
value is a byte over 255, see `imageDataToTensor_mem_unit`), and the alpha
bytes (255 here) are dropped. -/
theorem preprocess_layout_counterexample :
    imageDataToTensor [10, 20, 30, 255, 50, 60, 70, 255] =
      [10 / 255, 20 / 255, 30 / 255, 50 / 255, 60 / 255, 70 / 255] ∧
    planarTensorSpec [10, 20, 30, 255, 50, 60, 70, 255] 2 =
      [10 / 255, 50 / 255, 20 / 255, 60 / 255, 30 / 255, 70 / 255] ∧
    imageDataToTensor [10, 20, 30, 255, 50, 60, 70, 255] ≠
      planarTensorSpec [10, 20, 30, 255, 50, 60, 70, 255] 2 := by
  have h1 : imageDataToTensor [10, 20, 30, 255, 50, 60, 70, 255] =
      [10 / 255, 20 / 255, 30 / 255, 50 / 255, 60 / 255, 70 / 255] := by
    have e10 : ((10 : Fin 256) : ℕ) = 10 := rfl
    have e20 : ((20 : Fin 256) : ℕ) = 20 := rfl
    have e30 : ((30 : Fin 256) : ℕ) = 30 := rfl
    have e50 : ((50 : Fin 256) : ℕ) = 50 := rfl
    have e60 : ((60 : Fin 256) : ℕ) = 60 := rfl
    have e70 : ((70 : Fin 256) : ℕ) = 70 := rfl
    norm_num [imageDataToTensor, e10, e20, e30, e50, e60, e70]
  have h2 : planarTensorSpec [10, 20, 30, 255, 50, 60, 70, 255] 2 =
      [10 / 255, 50 / 255, 20 / 255, 60 / 255, 30 / 255, 70 / 255] := by
    have e10 : ((10 : Fin 256) : ℕ) = 10 := rfl
    have e20 : ((20 : Fin 256) : ℕ) = 20 := rfl
    have e30 : ((30 : Fin 256) : ℕ) = 30 := rfl
    have e50 : ((50 : Fin 256) : ℕ) = 50 := rfl
    have e60 : ((60 : Fin 256) : ℕ) = 60 := rfl
    have e70 : ((70 : Fin 256) : ℕ) = 70 := rfl
    norm_num [planarTensorSpec, List.range_succ, List.range_zero,
      List.getD_cons_zero, List.getD_cons_succ, e10, e20, e30, e50, e60, e70]
  refine ⟨h1, h2, ?_⟩
  rw [h1, h2]
  intro hcon
  have := List.cons.inj hcon
  have h20 : (20 : ℚ) / 255 = 50 / 255 := (List.cons.inj this.2).1
  norm_num at h20

/-- Claim C6 counterexample: a stub draw that selects "cell phone" produces
the single detection with `classId = 1` (its index in the six-entry mock
set) and `className = "cell phone"`, but entry 1 of the 80-entry COCO table
is "bicycle" ("cell phone" sits at index 67), so the detection's
`className` is not the `classId`-th entry of the class-name table. -/
theorem stub_counterexample :
    (YOLOWorker.runInferenceMock fun n =>
        if n = 0 then 4 / 5 else if n = 1 then 1 / 4 else 1 / 2).map
      (fun d => (d.classId, d.className)) = [(1, "cell phone")] ∧
    cocoClassNames.getD 1 "" = "bicycle" ∧
    cocoClassNames.indexOf "cell phone" = 67 ∧
    ("cell phone" : String) ≠ "bicycle" := by
  have hfloor : ⌊(1 / 4 : ℚ) * 6⌋ = 1 := by
    norm_num
  have hget : YOLOWorker.mockClasses.getD 1 "" = "cell phone" := by decide
  have hidx : YOLOWorker.mockClasses.indexOf "cell phone" = 1 := by decide
  refine ⟨?_, by decide, by decide, by decide⟩
  rw [YOLOWorker.runInferenceMock]
  norm_num [hfloor, hget, hidx]
  decide

/-- Claim C6 (amended): with `rand` the stream of `Math.random()` draws (all
in `[0, 1)`), the stub returns zero detections exactly when the first draw
is at most 0.7 — an event of probability 70%, not 30% — and otherwise
returns exactly one synthetic detection whose class name is one of the fixed
six-entry mock set, whose `classId` is the index *within that six-entry
set*, whose confidence is `0.5 + 0.4·u ∈ [0.5, 0.9)`, and whose box has
positive width and height. -/
theorem stub_inference_profile (rand : ℕ → ℚ)
    (hr : ∀ n, 0 ≤ rand n ∧ rand n < 1) :
    (YOLOWorker.runInferenceMock rand = [] ↔ rand 0 ≤ 7 / 10) ∧
    (7 / 10 < rand 0 → ∃ d,
      YOLOWorker.runInferenceMock rand = [d] ∧
      d.className ∈ YOLOWorker.mockClasses ∧
      d.classId = YOLOWorker.mockClasses.indexOf d.className ∧
      1 / 2 ≤ d.confidence ∧ d.confidence < 9 / 10 ∧
      0 < d.bbox.w ∧ 0 < d.bbox.h) := by
  constructor
  · rw [YOLOWorker.runInferenceMock]
    split_ifs with h
    · simp only [List.cons_ne_nil, false_iff, not_le]
      exact h
    · simp only [true_iff]
      exact not_lt.mp h
  · intro h
    rw [YOLOWorker.runInferenceMock, if_pos h]
    refine ⟨_, rfl, ?_, rfl, ?_, ?_, ?_, ?_⟩
    · have hlen : Int.toNat ⌊rand 1 * 6⌋ < YOLOWorker.mockClasses.length := by
        have h1 := (hr 1).1
        have h2 := (hr 1).2
        have hflt : ⌊rand 1 * 6⌋ < 6 := by
          have : rand 1 * 6 < 6 := by nlinarith
          exact Int.floor_lt.mpr (by exact_mod_cast this)
        have : Int.toNat ⌊rand 1 * 6⌋ < 6 := by omega
        simpa [YOLOWorker.mockClasses] using this
      rw [List.getD_eq_getElem?_getD, List.getElem?_eq_getElem hlen]
      exact List.getElem_mem hlen
    · have := (hr 2).1
      nlinarith
    · have := (hr 2).2
      nlinarith
    · have := (hr 5).1
      show 0 < 50 + rand 5 * 100
      nlinarith
    · have := (hr 6).1
      show 0 < 50 + rand 6 * 100
      nlinarith

/-- Witness for C6 (amended): a first draw of 0.4 (not above 0.7) yields the
empty detection list. -/
theorem stub_inference_profile_witness :
    YOLOWorker.runInferenceMock (fun n => if n = 0 then 2 / 5 else 1 / 2) = [] :=
  (stub_inference_profile (fun n => if n = 0 then 2 / 5 else 1 / 2)
    (fun n => by by_cases h : n = 0 <;> norm_num [h])).1.mpr (by norm_num)

/-- Claim C7 counterexample: when the pipeline throws on a queued frame, the
terminal `error` message carries the frame's id but no `timestamp` field
(`yolo-worker.js` lines 186-190 post only `type`, `error` and `frameId`), so
the error event does not include the frame's original submission timestamp
as the claim requires. -/
theorem terminal_event_counterexample :
    YOLOWorker.processQueue (fun _ => Except.error "Preprocessing failed")
        [⟨"frame1", 111⟩] =
      [{ type := "error", detections := none, timestamp := none,
         frameId := some "frame1", error := some "Preprocessing failed" }] ∧
    (YOLOWorker.processQueue (fun _ => Except.error "Preprocessing failed")
        [⟨"frame1", 111⟩]).map YOLOWorker.EventMsg.timestamp ≠ [some (111 : ℚ)] := by
  constructor
  · rfl
  · intro hcon
    have : (none : Option ℚ) = some 111 := (List.cons.inj hcon).1
    exact Option.noConfusion this

/-- Claim C7 (amended): the drain loop emits exactly one terminal event per
queued frame, in queue order, each carrying the frame's id; a successful
frame's event is a `detectionResults` message carrying the frame's
submission timestamp, while a failed frame's event is an `error` message
with no timestamp field; and a stage failure affects only its own frame —
every other queued frame still receives its own terminal event. -/
theorem terminal_event_per_frame
    (pipeline : YOLOWorker.Frame → Except String (List Detection))
    (queue : List YOLOWorker.Frame) :
    (YOLOWorker.processQueue pipeline queue).length = queue.length ∧
    List.Forall₂ (fun f e =>
        e.frameId = some f.id ∧
        ((e.type = "detectionResults" ∧ e.timestamp = some f.timestamp ∧
            e.error = none) ∨
         (e.type = "error" ∧ e.timestamp = none ∧ e.detections = none)))
      queue (YOLOWorker.processQueue pipeline queue) := by
  induction queue with
  | nil => exact ⟨rfl, List.Forall₂.nil⟩
  | cons f rest ih =>
    have hcons : YOLOWorker.processQueue pipeline (f :: rest) =
        YOLOWorker.processOneFrame pipeline f ::
          YOLOWorker.processQueue pipeline rest := rfl
    rw [hcons]
    refine ⟨by simp [ih.1], List.Forall₂.cons ?_ ih.2⟩
    cases hp : pipeline f with
    | ok dets => simp [YOLOWorker.processOneFrame, hp]
    | error e => simp [YOLOWorker.processOneFrame, hp]

/-- Claim C8: the drain is first-in first-out — for any queue of submitted
frames, the terminal events carry exactly the submitted frame ids in
submission order (one event per frame, success or failure alike).  The
sequential drain model processes one frame to completion before touching
the next, which is the source's serialisation discipline (`isProcessing`
plus the single-threaded worker event loop). -/
theorem fifo_completion_order
    (pipeline : YOLOWorker.Frame → Except String (List Detection))
    (queue : List YOLOWorker.Frame) :
    (YOLOWorker.processQueue pipeline queue).map YOLOWorker.EventMsg.frameId =
      queue.map (fun f => some f.id) := by
  induction queue with
  | nil => rfl
  | cons f rest ih =>
    have hcons : YOLOWorker.processQueue pipeline (f :: rest) =
        YOLOWorker.processOneFrame pipeline f ::
          YOLOWorker.processQueue pipeline rest := rfl
    rw [hcons, List.map_cons, List.map_cons, ih]
    congr 1
    cases hp : pipeline f <;> simp [YOLOWorker.processOneFrame, hp]
